import Mathlib

/-!
Verification development for the AppDoc scanning engine.

The definitions below are a shallow embedding of the code in
src/appdoc/models.py, src/appdoc/core/scanner.py and
src/appdoc/analyzers/*.py.  Pure Python functions become Lean
functions; the file system is passed explicitly as a value; Python
floats used only for coverage percentages are modelled as rationals;
Python exceptions become an Except; a Python dataclass call with
keyword arguments is modelled by checking the keyword names against
the list of fields the dataclass declares, exactly as CPython raises
TypeError on an unexpected keyword argument.
-/

namespace AppDoc

/-- Python exceptions relevant to the embedded code (all of them are
subclasses of Exception, hence caught by an `except Exception` clause). -/
inductive PyExc where
  | typeError
  | other
deriving DecidableEq, Repr

/-- Character class of the regex shorthand for word characters,
ASCII fragment: letters, digits and the underscore. -/
def isWordChar (c : Char) : Bool :=
  c.isAlpha || c.isDigit || c = '_'

/-- Character class of the regex whitespace shorthand, ASCII fragment:
space, tab, newline, carriage return, vertical tab, form feed. -/
def isSpaceChar (c : Char) : Bool :=
  c = ' ' || c = '\t' || c = '\n' || c = '\r' || c = '\x0b' || c = '\x0c'

/-- Does the list `l` begin with the pattern `p`? -/
def startsWithChars : List Char → List Char → Bool
  | [], _ => true
  | _ :: _, [] => false
  | p :: ps, c :: cs => p = c && startsWithChars ps cs

/-- Does the list `l` end with the pattern `p`? -/
def endsWithChars (p l : List Char) : Bool :=
  startsWithChars p.reverse l.reverse

/-- Auxiliary count of newline characters. -/
def newlineCount (content : List Char) : Nat :=
  content.countP (· = '\n')

/-- Python `len(s.splitlines())` for texts whose only line separators
are newline characters: zero for the empty text, otherwise the number
of newlines plus one when the text does not end in a newline. -/
def splitlinesLen (content : List Char) : Nat :=
  if content = [] then 0
  else if content.getLast? = some '\n' then newlineCount content
  else newlineCount content + 1

/-- Field names declared by the dataclass `FileMetric` in models.py. -/
def fileMetricFields : List String :=
  ["path", "language", "lines", "functions", "documented_functions",
   "classes", "documented_classes", "dependencies", "complexity"]

/-- Field names declared by the dataclass `LanguageSummary` in models.py. -/
def languageSummaryFields : List String :=
  ["language", "files", "lines", "functions", "documented_functions",
   "classes", "documented_classes"]

/-- Field names declared by the dataclass `ScanResult` in models.py. -/
def scanResultFields : List String :=
  ["total_files", "total_lines", "language_summaries", "file_metrics",
   "duration_seconds", "scan_path", "timestamp"]

/-- Names models.py defines at module level (besides the imports). -/
def modelsDefinedNames : List String :=
  ["FileMetric", "LanguageSummary", "ScanResult"]

/-- Names python_analyzer.py imports from ..models at line 8. -/
def pythonAnalyzerImportedNames : List String :=
  ["FileMetric", "FunctionDetail", "ClassDetail"]

/-- A Python dataclass call with keyword arguments succeeds only when
every keyword names a declared field; otherwise the generated init
raises TypeError (unexpected keyword argument). -/
def dataclassAcceptsCall (fields kwargs : List String) : Bool :=
  kwargs.all (fields.contains ·)

/-- Keywords of the `FileMetric(...)` call on the success path of
PythonAnalyzer.analyze_file (python_analyzer.py lines 53-64). -/
def pythonFileMetricCallKeywords : List String :=
  ["path", "language", "lines", "functions", "documented_functions",
   "classes", "documented_classes", "dependencies",
   "function_details", "class_details"]

/-- Keywords of the `ScanResult(...)` call in Scanner.scan
(scanner.py lines 99-110). -/
def scanResultCallKeywords : List String :=
  ["total_files", "total_lines", "language_summaries", "file_metrics",
   "duration_seconds", "scan_path", "timestamp",
   "dependency_graph", "files_scanned", "ignored_patterns"]

/-- The dataclass `FileMetric` of models.py, with its declared fields
and defaults. -/
structure FileMetric where
  path : String
  language : String
  lines : Nat
  functions : Nat := 0
  documented_functions : Nat := 0
  classes : Nat := 0
  documented_classes : Nat := 0
  dependencies : List String := []
  complexity : Option Int := none
deriving DecidableEq, Repr

/-- The dataclass `LanguageSummary` of models.py. -/
structure LanguageSummary where
  language : String
  files : Nat := 0
  lines : Nat := 0
  functions : Nat := 0
  documented_functions : Nat := 0
  classes : Nat := 0
  documented_classes : Nat := 0
deriving DecidableEq, Repr

/-- Property FileMetric.documentation_coverage of models.py: zero when
there is nothing documentable, otherwise the documented fraction times
one hundred.  It is a derived value, not a stored field. -/
def FileMetric.documentation_coverage (m : FileMetric) : ℚ :=
  let totalItems : Nat := m.functions + m.classes
  if totalItems = 0 then 0
  else ((m.documented_functions + m.documented_classes : Nat) : ℚ) / (totalItems : ℚ) * 100

/-- Property LanguageSummary.documentation_coverage of models.py, the
same formula applied to the summed counters.  It is a derived value,
not a stored field. -/
def LanguageSummary.documentation_coverage (s : LanguageSummary) : ℚ :=
  let totalItems : Nat := s.functions + s.classes
  if totalItems = 0 then 0
  else ((s.documented_functions + s.documented_classes : Nat) : ℚ) / (totalItems : ℚ) * 100

/-- Python statements as far as ASTAnalyzer of python_analyzer.py
inspects them: function, async function and class definitions carry a
name and a body; the two import statement forms carry dotted module
names; an expression statement whose value is a string constant is the
docstring form; every other simple statement is opaque and every other
compound statement only contributes its children to the visit. -/
inductive PyStmt where
  | funcDef (name : String) (body : List PyStmt)
  | asyncFuncDef (name : String) (body : List PyStmt)
  | classDef (name : String) (body : List PyStmt)
  | importNames (names : List String)
  | importFromMod (module : Option String)
  | exprConstStr (s : String)
  | otherSimple
  | block (body : List PyStmt)
deriving Repr

/-- Leading segment of a dotted module name, Python `name.split('.')[0]`. -/
def firstDotSegment (s : String) : String :=
  ⟨s.toList.takeWhile (· ≠ '.')⟩

/-- PythonAnalyzer._has_docstring applied to a body: the first body
statement is an expression statement holding a string constant. -/
def hasDocstringBody : List PyStmt → Bool
  | PyStmt.exprConstStr _ :: _ => true
  | _ => false

/-- What ASTAnalyzer collects in one visit: for each function its
name, whether the visitor was inside a class (func_type method), and
whether it has a docstring; for each class its name and docstring
flag; the leading segments of the imported module names. -/
structure PyCollect where
  functions : List (String × Bool × Bool) := []
  classes : List (String × Bool) := []
  imports : List String := []
deriving Repr

/-- Concatenation of two collection results. -/
def PyCollect.append (a b : PyCollect) : PyCollect :=
  ⟨a.functions ++ b.functions, a.classes ++ b.classes, a.imports ++ b.imports⟩

/-- The empty collection result. -/
def PyCollect.empty : PyCollect := ⟨[], [], []⟩

mutual

/-- One step of the ASTAnalyzer visit of python_analyzer.py: function
and async function definitions are recorded (tagged method exactly
when current_class is set) and their bodies visited with the class
context unchanged; a class definition is recorded and its body visited
with current_class set; the import statement forms record leading
module segments; everything else only recurses. -/
def visitStmt (inClass : Bool) : PyStmt → PyCollect
  | PyStmt.funcDef name body =>
      PyCollect.append ⟨[(name, inClass, hasDocstringBody body)], [], []⟩ (visitStmts inClass body)
  | PyStmt.asyncFuncDef name body =>
      PyCollect.append ⟨[(name, inClass, hasDocstringBody body)], [], []⟩ (visitStmts inClass body)
  | PyStmt.classDef name body =>
      PyCollect.append ⟨[], [(name, hasDocstringBody body)], []⟩ (visitStmts true body)
  | PyStmt.importNames names => ⟨[], [], names.map firstDotSegment⟩
  | PyStmt.importFromMod m =>
      ⟨[], [], match m with | some s => [firstDotSegment s] | none => []⟩
  | PyStmt.exprConstStr _ => PyCollect.empty
  | PyStmt.otherSimple => PyCollect.empty
  | PyStmt.block body => visitStmts inClass body

/-- Visit of a statement list, concatenating the collected data. -/
def visitStmts (inClass : Bool) : List PyStmt → PyCollect
  | [] => PyCollect.empty
  | s :: rest => PyCollect.append (visitStmt inClass s) (visitStmts inClass rest)

end

/-- A Python source file as the analyzer can observe it: opening or
reading raises OSError; decoding raises UnicodeDecodeError; or the
text is read, with its line count and the outcome of ast.parse
(none for a SyntaxError, otherwise the module body). -/
inductive PyFile where
  | osError
  | unicodeError
  | src (lines : Nat) (tree : Option (List PyStmt))
deriving Repr

/-- The degraded FileMetric built in the except branch of
PythonAnalyzer.analyze_file; every keyword of that call names a
declared FileMetric field, so the construction succeeds. -/
def pyDegraded (path : String) (lines : Nat) : FileMetric :=
  { path := path, language := "python", lines := lines,
    functions := 0, documented_functions := 0,
    classes := 0, documented_classes := 0 }

/-- Line count the except branch of analyze_file recovers by reading
the file again: the true line count when the file is readable, zero
when even that read raises. -/
def pyRecoveredLines : PyFile → Nat
  | PyFile.osError => 0
  | PyFile.unicodeError => 0
  | PyFile.src lines _ => lines

/-- PythonAnalyzer.analyze_file.  A read or parse failure lands in the
except branch and yields the degraded metric.  On the success path the
code calls FileMetric with the keywords function_details and
class_details, which models.py does not declare, so the call raises
TypeError (an exception the except clause does not catch). -/
def pyAnalyzeFile (f : PyFile) (path : String) : Except PyExc FileMetric :=
  match f with
  | PyFile.osError => Except.ok (pyDegraded path 0)
  | PyFile.unicodeError => Except.ok (pyDegraded path 0)
  | PyFile.src lines none => Except.ok (pyDegraded path lines)
  | PyFile.src lines (some tree) =>
      let c := visitStmts false tree
      if dataclassAcceptsCall fileMetricFields pythonFileMetricCallKeywords then
        Except.ok
          { path := path, language := "python", lines := lines,
            functions := c.functions.length,
            documented_functions := c.functions.countP (fun fd => fd.2.2),
            classes := c.classes.length,
            documented_classes := c.classes.countP (fun cd => cd.2),
            dependencies := c.imports }
      else Except.error PyExc.typeError

/-- A text file as the regex and stub analyzers observe it. -/
inductive TextFile where
  | osError
  | unicodeError
  | src (content : String)
deriving Repr

/-- Line count recovered in an except branch for a text file. -/
def textRecoveredLines : TextFile → Nat
  | TextFile.osError => 0
  | TextFile.unicodeError => 0
  | TextFile.src content => splitlinesLen content.toList

/-- TypeScriptAnalyzer.analyze_file: a stub that only counts lines;
all its FileMetric keywords are declared fields, so it never raises. -/
def tsAnalyzeFile (f : TextFile) (path : String) : Except PyExc FileMetric :=
  match f with
  | TextFile.src content =>
      Except.ok { path := path, language := "typescript",
                  lines := splitlinesLen content.toList, dependencies := [] }
  | _ => Except.ok { path := path, language := "typescript", lines := textRecoveredLines f }

/-- CSharpAnalyzer.analyze_file: the same stub shape for C#. -/
def csAnalyzeFile (f : TextFile) (path : String) : Except PyExc FileMetric :=
  match f with
  | TextFile.src content =>
      Except.ok { path := path, language := "csharp",
                  lines := splitlinesLen content.toList, dependencies := [] }
  | _ => Except.ok { path := path, language := "csharp", lines := textRecoveredLines f }

/-- The minimal metric Scanner._analyze_files_concurrently substitutes
when a task raises: language unknown, zero lines. -/
def degradedUnknown (p : String) : FileMetric :=
  { path := p, language := "unknown", lines := 0 }

/-- Scanner._analyze_files_concurrently: every dispatched file becomes
one result, collected in completion order; a task whose exception
escaped the analyzer is caught at the boundary (except Exception) and
replaced by the degraded unknown metric. -/
def runEngine (task : String → Except PyExc FileMetric)
    (completionOrder : List String) : List FileMetric :=
  completionOrder.map fun p =>
    match task p with
    | Except.ok m => m
    | Except.error _ => degradedUnknown p

/-- Characters of the keyword class. -/
def classLit : List Char := ['c', 'l', 'a', 's', 's']

/-- Characters of the keyword function. -/
def functionLit : List Char := ['f', 'u', 'n', 'c', 't', 'i', 'o', 'n']

/-- Opening of a JSDoc block comment. -/
def docCommentOpen : List Char := ['/', '*', '*']

/-- Closing of a block comment. -/
def docCommentClose : List Char := ['*', '/']

/-- The two quote characters of the dependency regexes. -/
def quoteChars : List Char := [Char.ofNat 39, '"']

/-- Word boundary before a word character: start of text or a
preceding non-word character. -/
def boundaryBefore : Option Char → Bool
  | none => true
  | some c => !isWordChar c

/-- One attempt of CLASS_PATTERN at the current position: a word
boundary, the literal class, one or more whitespace characters, one or
more word characters.  Both quantifiers are final and followed by a
disjoint character class, so the greedy maximal run is the unique
possible match.  Returns the matched text and the remaining input. -/
def tryMatchClass (prev : Option Char) (l : List Char) : Option (List Char × List Char) :=
  if boundaryBefore prev then
    if startsWithChars classLit l then
      let rest := l.drop 5
      let ws := rest.takeWhile isSpaceChar
      if ws.isEmpty then none
      else
        let r2 := rest.dropWhile isSpaceChar
        let w := r2.takeWhile isWordChar
        if w.isEmpty then none
        else some (classLit ++ ws ++ w, r2.drop w.length)
    else none
  else none

/-- Left-to-right non-overlapping scan of CLASS_PATTERN, the semantics
of re.findall: try the pattern at every position, emit each match and
continue right after its end.  The previous character is threaded for
the word-boundary test and the fuel bounds the recursion. -/
def scanClasses : Nat → Option Char → List Char → List (List Char)
  | 0, _, _ => []
  | _ + 1, _, [] => []
  | fuel + 1, prev, c :: rest =>
    match tryMatchClass prev (c :: rest) with
    | some (m, rest') => m :: scanClasses fuel (some (m.getLastD c)) rest'
    | none => scanClasses fuel (some c) rest

/-- CLASS_PATTERN.findall(content) of javascript_analyzer.py. -/
def findClasses (content : List Char) : List (List Char) :=
  scanClasses content.length none content

/-- Continuation of the documented-class pattern after a closing block
comment: optional whitespace, the literal class, mandatory whitespace,
then the full previously captured text cls.  Since cls is always a
findall match it begins with the non-space letter c, so the maximal
whitespace runs are again the only candidates. -/
def docClassAfterComment (cls : List Char) (s : List Char) : Bool :=
  let s3 := s.dropWhile isSpaceChar
  startsWithChars classLit s3 &&
    (match s3.drop 5 with
     | [] => false
     | c :: _ => isSpaceChar c && startsWithChars cls ((s3.drop 5).dropWhile isSpaceChar))

/-- The re.search of _count_documented_classes: somewhere in the
content an opening block doc comment, any characters, a closing, then
the continuation.  A backtracking search succeeds exactly when some
decomposition exists, hence the existential over suffixes. -/
def searchDocClass (content cls : List Char) : Bool :=
  content.tails.any fun s1 =>
    startsWithChars docCommentOpen s1 &&
      (s1.drop 3).tails.any fun s2 =>
        startsWithChars docCommentClose s2 && docClassAfterComment cls (s2.drop 2)

/-- JavaScriptAnalyzer._count_documented_classes: one count per entry
of the findall list whose documented-class search succeeds. -/
def jsCountDocumentedClasses (content : List Char) (classes : List (List Char)) : Nat :=
  classes.countP (fun cls => searchDocClass content cls)

/-- Tail shared by the function patterns: optional whitespace, an
opening parenthesis, any characters other than a closing parenthesis,
the closing parenthesis, optional whitespace, an opening brace.
Returns the input after the brace. -/
def matchArgsBrace (l : List Char) : Option (List Char) :=
  match l.dropWhile isSpaceChar with
  | '(' :: r3 =>
    let args := r3.takeWhile (· ≠ ')')
    (match r3.drop args.length with
     | ')' :: r4 =>
       (match r4.dropWhile isSpaceChar with
        | c :: r6 => if c = '\x7b' then some r6 else none
        | [] => none)
     | _ => none)
  | _ => none

/-- One attempt of the declaration regex of _find_functions: the
literal function, whitespace, a captured word, then arguments and an
opening brace.  Returns the captured name and the remaining input. -/
def tryMatchFuncDecl (l : List Char) : Option (List Char × List Char) :=
  if startsWithChars functionLit l then
    let rest := l.drop 8
    let ws := rest.takeWhile isSpaceChar
    if ws.isEmpty then none
    else
      let r1 := rest.dropWhile isSpaceChar
      let name := r1.takeWhile isWordChar
      if name.isEmpty then none
      else
        match matchArgsBrace (r1.drop name.length) with
        | some r6 => some (name, r6)
        | none => none
  else none

/-- One attempt of the arrow-function regex of _find_functions: const,
let or var, whitespace, a captured word, an equals sign, then either a
parenthesised argument list or a single word, followed by an arrow. -/
def tryMatchArrow (l : List Char) : Option (List Char × List Char) :=
  let kwLen : Option Nat :=
    if startsWithChars ['c', 'o', 'n', 's', 't'] l then some 5
    else if startsWithChars ['l', 'e', 't'] l then some 3
    else if startsWithChars ['v', 'a', 'r'] l then some 3
    else none
  match kwLen with
  | none => none
  | some k =>
    let rest := l.drop k
    match rest with
    | c :: _ =>
      if isSpaceChar c then
        let r1 := rest.dropWhile isSpaceChar
        let name := r1.takeWhile isWordChar
        if name.isEmpty then none
        else
          match (r1.drop name.length).dropWhile isSpaceChar with
          | '=' :: r3 =>
            let r4 := r3.dropWhile isSpaceChar
            (match r4 with
             | '(' :: r5 =>
               let args := r5.takeWhile (· ≠ ')')
               (match r5.drop args.length with
                | ')' :: r6 =>
                  (match r6.dropWhile isSpaceChar with
                   | '=' :: '>' :: r7 => some (name, r7)
                   | _ => arrowSecondAlt name r4)
                | _ => arrowSecondAlt name r4)
             | _ => arrowSecondAlt name r4)
          | _ => none
      else none
    | [] => none
where
  /-- Second alternative of the trailing group: a word, optional
  whitespace, an arrow. -/
  arrowSecondAlt (name r4 : List Char) : Option (List Char × List Char) :=
    let w := r4.takeWhile isWordChar
    if w.isEmpty then none
    else
      match (r4.drop w.length).dropWhile isSpaceChar with
      | '=' :: '>' :: r8 => some (name, r8)
      | _ => none

/-- One attempt of the method-like regex of _find_functions: a
captured word directly followed by arguments and an opening brace. -/
def tryMatchCallBrace (l : List Char) : Option (List Char × List Char) :=
  let name := l.takeWhile isWordChar
  if name.isEmpty then none
  else
    match matchArgsBrace (l.drop name.length) with
    | some r6 => some (name, r6)
    | none => none

/-- re.findall semantics for a pattern with no word-boundary: try the
attempt at every position from left to right, emitting matches and
continuing after each match end. -/
def scanPlain (step : List Char → Option (List Char × List Char)) :
    Nat → List Char → List (List Char)
  | 0, _ => []
  | _ + 1, [] => []
  | fuel + 1, c :: rest =>
    match step (c :: rest) with
    | some (cap, rest') => cap :: scanPlain step fuel rest'
    | none => scanPlain step fuel rest

/-- Keywords of the control-flow filter regex in _find_functions. -/
def controlKeywordLits : List (List Char) :=
  [['i', 'f'], ['f', 'o', 'r'], ['w', 'h', 'i', 'l', 'e'],
   ['c', 'a', 't', 'c', 'h'], ['s', 'w', 'i', 't', 'c', 'h'], classLit]

/-- One attempt of the filter regex: a word boundary, one of the
control keywords, whitespace, the candidate name, optional whitespace,
an opening parenthesis. -/
def keywordCallAt (m : List Char) (prev : Option Char) (s : List Char) : Bool :=
  boundaryBefore prev &&
    controlKeywordLits.any fun kw =>
      startsWithChars kw s &&
        (match s.drop kw.length with
         | [] => false
         | c :: _ =>
           isSpaceChar c &&
             (let r2 := (s.drop kw.length).dropWhile isSpaceChar
              startsWithChars m r2 &&
                (match (r2.drop m.length).dropWhile isSpaceChar with
                 | '(' :: _ => true
                 | _ => false)))

/-- re.search of the filter regex: an attempt succeeds at some
position of the content. -/
def searchKeywordCallAux (m : List Char) : Option Char → List Char → Bool
  | _, [] => false
  | prev, c :: rest =>
    keywordCallAt m prev (c :: rest) || searchKeywordCallAux m (some c) rest

/-- Whether the content contains a control-flow keyword applied to the
candidate name, the filter of _find_functions. -/
def searchKeywordCall (m : List Char) (content : List Char) : Bool :=
  searchKeywordCallAux m none content

/-- Python list(set(...)) modelled as deduplication; only the count
and membership of the result are ever used downstream, and both are
independent of the iteration order of the Python set. -/
def dedupKeepFirst {α : Type _} [DecidableEq α] (l : List α) : List α :=
  l.foldl (fun acc x => if acc.contains x then acc else acc ++ [x]) []

/-- JavaScriptAnalyzer._find_functions: declarations, arrow bindings
and method-like forms filtered by the control-flow search, then
deduplicated and purged of bare control keywords. -/
def jsFindFunctions (content : List Char) : List (List Char) :=
  let funcDecls := scanPlain tryMatchFuncDecl content.length content
  let arrows := scanPlain tryMatchArrow content.length content
  let methods := (scanPlain tryMatchCallBrace content.length content).filter
    (fun m => !searchKeywordCall m content)
  let all := funcDecls ++ arrows ++ methods
  (dedupKeepFirst all).filter
    (fun f => !(controlKeywordLits.take 5).contains f)

/-- Trailing alternation of the documented-function pattern: either
the literal function, whitespace and the name, or a word, whitespace,
the name, optional whitespace and an equals sign. -/
def docFuncTail (f : List Char) (s : List Char) : Bool :=
  (startsWithChars functionLit s &&
    (match s.drop 8 with
     | [] => false
     | c :: _ => isSpaceChar c && startsWithChars f ((s.drop 8).dropWhile isSpaceChar)))
  ||
  (match s with
   | [] => false
   | c :: _ =>
     isWordChar c &&
       (let w := s.takeWhile isWordChar
        match s.drop w.length with
        | [] => false
        | d :: _ =>
          isSpaceChar d &&
            (let r2 := (s.drop w.length).dropWhile isSpaceChar
             startsWithChars f r2 &&
               (match (r2.drop f.length).dropWhile isSpaceChar with
                | '=' :: _ => true
                | _ => false))))

/-- re.search of _count_documented_functions: a doc comment opening,
any characters, a closing, an arbitrary lazy gap, then the trailing
alternation; existential over decompositions. -/
def searchDocFunc (content f : List Char) : Bool :=
  content.tails.any fun s1 =>
    startsWithChars docCommentOpen s1 &&
      (s1.drop 3).tails.any fun s2 =>
        startsWithChars docCommentClose s2 &&
          (s2.drop 2).tails.any fun s3 => docFuncTail f s3

/-- JavaScriptAnalyzer._count_documented_functions. -/
def jsCountDocumentedFunctions (content : List Char) (funcs : List (List Char)) : Nat :=
  funcs.countP (fun f => searchDocFunc content f)

/-- One attempt of the ES6 import regex of _extract_dependencies: the
literal from, whitespace, a quote, a captured run of non-quote
characters, a quote. -/
def tryMatchFromImport (l : List Char) : Option (List Char × List Char) :=
  if startsWithChars ['f', 'r', 'o', 'm'] l then
    match l.drop 4 with
    | [] => none
    | c :: _ =>
      if isSpaceChar c then
        match (l.drop 4).dropWhile isSpaceChar with
        | [] => none
        | q :: r2 =>
          if quoteChars.contains q then
            let dep := r2.takeWhile (fun d => !quoteChars.contains d)
            if dep.isEmpty then none
            else
              match r2.drop dep.length with
              | q2 :: r3 => if quoteChars.contains q2 then some (dep, r3) else none
              | [] => none
          else none
      else none
  else none

/-- One attempt of the CommonJS require regex of
_extract_dependencies. -/
def tryMatchRequire (l : List Char) : Option (List Char × List Char) :=
  if startsWithChars ['r', 'e', 'q', 'u', 'i', 'r', 'e'] l then
    match (l.drop 7).dropWhile isSpaceChar with
    | '(' :: r1 =>
      (match r1.dropWhile isSpaceChar with
       | [] => none
       | q :: r3 =>
         if quoteChars.contains q then
           let dep := r3.takeWhile (fun d => !quoteChars.contains d)
           if dep.isEmpty then none
           else
             match r3.drop dep.length with
             | q2 :: r4 =>
               if quoteChars.contains q2 then
                 match r4.dropWhile isSpaceChar with
                 | ')' :: r5 => some (dep, r5)
                 | _ => none
               else none
             | [] => none
         else none)
    | _ => none
  else none

/-- JavaScriptAnalyzer._extract_dependencies: both import forms,
deduplicated, relative imports discarded, reduced to the leading
path segment. -/
def jsExtractDependencies (content : List Char) : List String :=
  let fromDeps := scanPlain tryMatchFromImport content.length content
  let reqDeps := scanPlain tryMatchRequire content.length content
  let deps := dedupKeepFirst (fromDeps ++ reqDeps)
  (deps.filter fun d =>
      !d.isEmpty && (match d with | c :: _ => decide (c ≠ '.') | [] => false)).map
    (fun d => (⟨d.takeWhile (· ≠ '/')⟩ : String))

/-- JavaScriptAnalyzer.analyze_file.  The unused comments variable of
the source (COMMENT_PATTERN.findall) is dropped.  Every keyword of the
success-path FileMetric call names a declared field, so unlike the
Python analyzer the construction succeeds; a read failure lands in the
except branch with the degraded metric. -/
def jsAnalyzeFile (f : TextFile) (path : String) : Except PyExc FileMetric :=
  match f with
  | TextFile.src content =>
    let cs := content.toList
    let functions := jsFindFunctions cs
    let classes := findClasses cs
    Except.ok
      { path := path, language := "javascript",
        lines := splitlinesLen cs,
        functions := functions.length,
        documented_functions := jsCountDocumentedFunctions cs functions,
        classes := classes.length,
        documented_classes := jsCountDocumentedClasses cs classes,
        dependencies := jsExtractDependencies cs }
  | _ =>
    Except.ok { path := path, language := "javascript",
                lines := textRecoveredLines f,
                functions := 0, documented_functions := 0,
                classes := 0, documented_classes := 0 }

/-- An analyzer of the registry as far as discovery and dispatch see
it: its language_name and its file_extensions.  The Scanner holds them
in a dict whose insertion order python, javascript, typescript, csharp
is preserved by analyzer_instances. -/
structure AnalyzerSpec where
  language : String
  exts : List String
deriving DecidableEq, Repr

/-- The ordered analyzer registry of Scanner.__init__. -/
def registry : List AnalyzerSpec :=
  [⟨"python", [".py"]⟩,
   ⟨"javascript", [".js", ".mjs", ".ts"]⟩,
   ⟨"typescript", [".ts", ".tsx"]⟩,
   ⟨"csharp", [".cs"]⟩]

/-- Final path component, the part after the last separator. -/
def lastComponent (p : String) : List Char :=
  (p.toList.reverse.takeWhile (· ≠ '/')).reverse

/-- pathlib Path.suffix: the extension of the final component, taken
from its last dot when that dot is neither the first nor the last
character of the name, empty otherwise. -/
def suffixOf (p : String) : String :=
  let name := lastComponent p
  let afterRev := name.reverse.takeWhile (· ≠ '.')
  if afterRev.length = name.length then ""
  else
    let i := name.length - afterRev.length - 1
    if 0 < i ∧ i < name.length - 1 then ⟨name.drop i⟩ else ""

/-- BaseAnalyzer.can_analyze: the path suffix is one of the
analyzer extensions. -/
def canAnalyze (a : AnalyzerSpec) (p : String) : Bool :=
  a.exts.contains (suffixOf p)

/-- The analyzer subset Scanner.scan uses: all of them when the
languages argument is falsy, otherwise those whose language_name is
listed. -/
def usedAnalyzers (langs : List String) : List AnalyzerSpec :=
  if langs.isEmpty then registry else registry.filter (fun a => langs.contains a.language)

/-- Scanner._discover_files restricted to the extension walk: for each
used analyzer and each of its extensions, every path of the tree whose
name ends with the extension is collected, and duplicates are removed.
Ignore-pattern filtering follows in the source and is orthogonal to
the claims settled here, none of which constrains it. -/
def discoverFiles (langs : List String) (paths : List String) : List String :=
  let used := usedAnalyzers langs
  let collected := used.foldl
    (fun acc a => acc ++ a.exts.foldl
      (fun acc2 e => acc2 ++ paths.filter (fun p => endsWithChars e.toList p.toList)) [])
    []
  dedupKeepFirst collected

/-- Scanner._analyze_single_file dispatch: the first analyzer of the
FULL registry whose can_analyze accepts the path; the language filter
of scan is not consulted here. -/
def dispatchAnalyzer (p : String) : Option AnalyzerSpec :=
  registry.find? (fun a => canAnalyze a p)

/-- A fresh per-language accumulator entry of _aggregate_results. -/
def zeroSummary (lang : String) : LanguageSummary :=
  { language := lang }

/-- One file folded into its language accumulator, the six additions
of the loop body of _aggregate_results. -/
def bumpSummary (s : LanguageSummary) (m : FileMetric) : LanguageSummary :=
  { s with
    files := s.files + 1,
    lines := s.lines + m.lines,
    functions := s.functions + m.functions,
    documented_functions := s.documented_functions + m.documented_functions,
    classes := s.classes + m.classes,
    documented_classes := s.documented_classes + m.documented_classes }

/-- The dict update of _aggregate_results: find the language entry and
bump it, or append a fresh bumped entry preserving insertion order. -/
def aggUpdate : List (String × LanguageSummary) → FileMetric → List (String × LanguageSummary)
  | [], m => [(m.language, bumpSummary (zeroSummary m.language) m)]
  | (l, s) :: rest, m =>
    if l = m.language then (l, bumpSummary s m) :: rest
    else (l, s) :: aggUpdate rest m

/-- Scanner._aggregate_results: group the metrics by language tag and
sum the base counters, as an insertion-ordered association list. -/
def aggregateResults (ms : List FileMetric) : List (String × LanguageSummary) :=
  ms.foldl aggUpdate []

/-- Lookup in the aggregation, defaulting to the empty summary of the
requested language. -/
def lookupSummary : List (String × LanguageSummary) → String → LanguageSummary
  | [], lang => zeroSummary lang
  | (l, s) :: rest, lang => if l = lang then s else lookupSummary rest lang

/-- Componentwise sum of two summaries of the same language. -/
def addSummary (a b : LanguageSummary) : LanguageSummary :=
  { language := a.language,
    files := a.files + b.files,
    lines := a.lines + b.lines,
    functions := a.functions + b.functions,
    documented_functions := a.documented_functions + b.documented_functions,
    classes := a.classes + b.classes,
    documented_classes := a.documented_classes + b.documented_classes }

/-- Path.relative_to(scan_path) for a file below the scan root. -/
def stripRoot (scanPath p : String) : String :=
  if startsWithChars (scanPath ++ "/").toList p.toList then p.drop (scanPath.length + 1) else p

/-- pathlib with_suffix applied with the empty suffix: the extension
of the final component is removed when present. -/
def dropLastExt (rel : List Char) : List Char :=
  let comp := rel.reverse.takeWhile (· ≠ '/')
  let afterRev := comp.takeWhile (· ≠ '.')
  if afterRev.length = comp.length then rel
  else
    let i := comp.length - afterRev.length - 1
    if 0 < i ∧ i < comp.length - 1 then rel.take (rel.length - afterRev.length - 1) else rel

/-- Module name of a root-relative path in _build_dependency_graph:
extension stripped and separators turned into dots. -/
def moduleNameOfRel (rel : String) : String :=
  ⟨(dropLastExt rel.toList).map (fun c => if c = '/' then '.' else c)⟩

/-- The module names one file is indexed under: its own module name
and the leading segment of each of its dependency tokens. -/
def potentialModules (scanPath : String) (m : FileMetric) : List String :=
  moduleNameOfRel (stripRoot scanPath m.path) :: m.dependencies.map firstDotSegment

/-- Append one owning file under one module name of the reverse
index, preserving insertion order. -/
def indexAppend : List (String × List String) → String → String → List (String × List String)
  | [], mod, rel => [(mod, [rel])]
  | (k, v) :: rest, mod, rel =>
    if k = mod then (k, v ++ [rel]) :: rest
    else (k, v) :: indexAppend rest mod rel

/-- The reverse index module_to_files of _build_dependency_graph,
built over the metrics in list order. -/
def buildModuleIndex (scanPath : String) (metrics : List FileMetric) : List (String × List String) :=
  metrics.foldl
    (fun idx m =>
      (potentialModules scanPath m).foldl
        (fun idx2 mod => indexAppend idx2 mod (stripRoot scanPath m.path)) idx)
    []

/-- Lookup of a module name in the reverse index. -/
def lookupIndex : List (String × List String) → String → Option (List String)
  | [], _ => none
  | (k, v) :: rest, mod => if k = mod then some v else lookupIndex rest mod

/-- networkx add_edge: a directed edge is recorded once. -/
def addEdge (es : List (String × String)) (e : String × String) : List (String × String) :=
  if e ∈ es then es else es ++ [e]

/-- The per-token body of the edge loop: resolve the leading segment
of the token in the reverse index; when candidates exist, connect the
file to the FIRST candidate unless that is the file itself. -/
def edgeStep (idx : List (String × List String)) (rel : String)
    (es : List (String × String)) (dep : String) : List (String × String) :=
  match lookupIndex idx (firstDotSegment dep) with
  | some (t :: _) => if t ≠ rel then addEdge es (rel, t) else es
  | _ => es

/-- The edge phase of _build_dependency_graph over all metrics. -/
def buildEdges (idx : List (String × List String)) (scanPath : String)
    (metrics : List FileMetric) : List (String × String) :=
  metrics.foldl
    (fun es m => m.dependencies.foldl (edgeStep idx (stripRoot scanPath m.path)) es) []

/-- The node-link output of _build_dependency_graph: the node list
and the directed edge list.  Node attributes (language, lines,
functions, classes, coverage) are copied from the metric and play no
role in any claim, so only node identity is retained here. -/
structure DepGraph where
  nodes : List String
  edges : List (String × String)
deriving DecidableEq, Repr

/-- Scanner._build_dependency_graph: nodes for every scanned file,
the reverse index, then edges from resolved dependency tokens. -/
def buildDependencyGraph (scanPath : String) (metrics : List FileMetric) : DepGraph :=
  { nodes := dedupKeepFirst (metrics.map (fun m => stripRoot scanPath m.path)),
    edges := buildEdges (buildModuleIndex scanPath metrics) scanPath metrics }

/-- Tail of Scanner.scan after the analysis barrier: aggregate, build
the graph, then construct the ScanResult with the exact keyword list
of the source call; the three keywords models.py does not declare make
the dataclass init raise TypeError. -/
def scanAssemble (scanPath : String) (metrics : List FileMetric) :
    Except PyExc (List (String × LanguageSummary) × DepGraph) :=
  let summaries := aggregateResults metrics
  let graph := buildDependencyGraph scanPath metrics
  if dataclassAcceptsCall scanResultFields scanResultCallKeywords then
    Except.ok (summaries, graph)
  else Except.error PyExc.typeError

/-- The per-file task of the engine for a directory of Python files:
find the file and run the Python analyzer on it. -/
def pyTask (files : List (String × PyFile)) (p : String) : Except PyExc FileMetric :=
  match files.find? (fun fp => fp.1 = p) with
  | some (_, f) => pyAnalyzeFile f p
  | none => Except.error PyExc.other

/-- Scanner.scan modelled for a directory of Python files, from
dispatch to result construction, with the completion order of the
thread pool passed explicitly. -/
def scanPyDir (scanPath : String) (files : List (String × PyFile)) (order : List String) :
    Except PyExc (List (String × LanguageSummary) × DepGraph) :=
  scanAssemble scanPath (runEngine (pyTask files) order)

/-! Theorems.  Each claim of the specification is settled below; the
helper lemmas come first. -/

/-- The single Python file of the test scenario: one documented
function and one documented class, as ast.parse reads test.py. -/
def scenarioTree : List PyStmt :=
  [PyStmt.funcDef "hello" [PyStmt.exprConstStr "A simple function.", PyStmt.otherSimple],
   PyStmt.classDef "TestClass" [PyStmt.exprConstStr "A test class."]]

/-- The scenario file: readable, parseable, seven lines. -/
def scenarioFile : PyFile := PyFile.src 7 (some scenarioTree)

/-- C1: the spec says the value returned by scan carries the resolved
root, timestamp, duration, totals, language summaries, file metrics,
the dependency graph and the echoed ignore patterns as fields of one
ScanResult.  The code disagrees with itself: Scanner.scan passes the
keywords dependency_graph, files_scanned and ignored_patterns, but the
ScanResult dataclass of models.py declares none of them, so the
generated init raises TypeError on every call that reaches the
construction, and no ScanResult carrying those fields is ever
returned. -/
theorem c1_scan_result_construction_raises :
    scanResultFields.contains "dependency_graph" = false ∧
    scanResultFields.contains "ignored_patterns" = false ∧
    scanResultFields.contains "files_scanned" = false ∧
    dataclassAcceptsCall scanResultFields scanResultCallKeywords = false ∧
    ∀ (scanPath : String) (metrics : List FileMetric),
      scanAssemble scanPath metrics = Except.error PyExc.typeError :=
  ⟨rfl, rfl, rfl, rfl, fun _ _ => rfl⟩

/-- C2: the scenario (one test.py with a documented function and a
documented class giving a python summary with all counts one) cannot
happen on this code.  python_analyzer.py line 8 imports FunctionDetail
and ClassDetail, which models.py does not define, so the module does
not even import; and the success path of analyze_file passes the
undeclared keywords function_details and class_details to FileMetric,
so it raises TypeError, which the engine converts into a degraded
metric of language unknown — the aggregation then holds no python
entry at all. -/
theorem c2_scenario_cannot_produce_python_summary :
    modelsDefinedNames.contains "FunctionDetail" = false ∧
    pythonAnalyzerImportedNames.contains "FunctionDetail" = true ∧
    fileMetricFields.contains "function_details" = false ∧
    dataclassAcceptsCall fileMetricFields pythonFileMetricCallKeywords = false ∧
    pyAnalyzeFile scenarioFile "/d/test.py" = Except.error PyExc.typeError ∧
    runEngine (pyTask [("/d/test.py", scenarioFile)]) ["/d/test.py"]
      = [degradedUnknown "/d/test.py"] ∧
    lookupSummary
      (aggregateResults (runEngine (pyTask [("/d/test.py", scenarioFile)]) ["/d/test.py"]))
      "python" = zeroSummary "python" ∧
    (degradedUnknown "/d/test.py").language = "unknown" :=
  ⟨rfl, rfl, rfl, rfl, rfl, rfl, rfl, rfl⟩

/-- The metric named for questioning the coverage biconditional: one
function, nothing documented. -/
def c9Metric : FileMetric :=
  { path := "f.py", language := "python", lines := 1, functions := 1 }

/-- C9 counterexample: coverage can be zero with a nonzero
denominator, so zero coverage does not happen exactly when
functions + classes = 0; an undocumented nonempty file also has
coverage zero. -/
theorem c9_coverage_zero_not_iff :
    c9Metric.documentation_coverage = 0 ∧ c9Metric.functions + c9Metric.classes ≠ 0 := by
  constructor
  · show FileMetric.documentation_coverage _ = 0
    norm_num [FileMetric.documentation_coverage, c9Metric]
  · norm_num [c9Metric]

/-- C9 amended: coverage is zero WHEN the denominator is zero and
otherwise equals one hundred times the documented fraction (hence it
can also be zero when nothing is documented); it is recomputed from
the base counts by a property, never stored; the same formula holds
for both FileMetric and LanguageSummary. -/
theorem c9_coverage_formula :
    (∀ m : FileMetric, m.documentation_coverage =
       if m.functions + m.classes = 0 then 0
       else 100 * ((m.documented_functions + m.documented_classes : Nat) : ℚ)
              / ((m.functions + m.classes : Nat) : ℚ)) ∧
    (∀ s : LanguageSummary, s.documentation_coverage =
       if s.functions + s.classes = 0 then 0
       else 100 * ((s.documented_functions + s.documented_classes : Nat) : ℚ)
              / ((s.functions + s.classes : Nat) : ℚ)) := by
  constructor
  · intro m
    show (if m.functions + m.classes = 0 then (0 : ℚ)
          else ((m.documented_functions + m.documented_classes : Nat) : ℚ)
                 / ((m.functions + m.classes : Nat) : ℚ) * 100) = _
    split_ifs
    · rfl
    · rw [div_mul_eq_mul_div, mul_comm]
  · intro s
    show (if s.functions + s.classes = 0 then (0 : ℚ)
          else ((s.documented_functions + s.documented_classes : Nat) : ℚ)
                 / ((s.functions + s.classes : Nat) : ℚ) * 100) = _
    split_ifs
    · rfl
    · rw [div_mul_eq_mul_div, mul_comm]

/-- Read or parse failure of a Python file: OSError or
UnicodeDecodeError while reading, or SyntaxError from ast.parse. -/
def pyBadInput (f : PyFile) : Prop :=
  f = PyFile.osError ∨ f = PyFile.unicodeError ∨ ∃ l, f = PyFile.src l none

/-- Read failure of a text file. -/
def textBadInput (f : TextFile) : Prop :=
  f = TextFile.osError ∨ f = TextFile.unicodeError

/-- C5: an unreadable or unparseable file never makes the matching
analyzer raise; it still returns exactly one FileMetric with all
structural counts zero, the correct language tag, and the actual line
count when the file is readable (zero when even reading fails, as for
OSError and for an invalid encoding, where the recovery read fails
again). -/
theorem c5_degraded_metric_on_failure :
    (∀ (f : PyFile) (p : String), pyBadInput f →
       pyAnalyzeFile f p = Except.ok
         { path := p, language := "python", lines := pyRecoveredLines f,
           functions := 0, documented_functions := 0,
           classes := 0, documented_classes := 0 }) ∧
    (∀ (f : TextFile) (p : String), textBadInput f →
       jsAnalyzeFile f p = Except.ok
         { path := p, language := "javascript", lines := 0,
           functions := 0, documented_functions := 0,
           classes := 0, documented_classes := 0 }) ∧
    (∀ (f : TextFile) (p : String), textBadInput f →
       tsAnalyzeFile f p = Except.ok
         { path := p, language := "typescript", lines := 0 }) ∧
    (∀ (f : TextFile) (p : String), textBadInput f →
       csAnalyzeFile f p = Except.ok
         { path := p, language := "csharp", lines := 0 }) := by
  refine ⟨?_, ?_, ?_, ?_⟩
  · rintro f p (rfl | rfl | ⟨l, rfl⟩) <;> rfl
  · rintro f p (rfl | rfl) <;> rfl
  · rintro f p (rfl | rfl) <;> rfl
  · rintro f p (rfl | rfl) <;> rfl

/-- C5 witness: a Python file whose text is readable (three lines) but
whose parse raises SyntaxError yields the degraded metric with the
actual line count. -/
theorem c5_witness :
    pyAnalyzeFile (PyFile.src 3 none) "bad.py" = Except.ok
      { path := "bad.py", language := "python", lines := 3,
        functions := 0, documented_functions := 0,
        classes := 0, documented_classes := 0 } :=
  c5_degraded_metric_on_failure.1 (PyFile.src 3 none) "bad.py" (Or.inr (Or.inr ⟨3, rfl⟩))

/-- C6: the engine produces exactly one FileMetric per dispatched
file, whatever completion order the pool yields: the result list has
the length of the input set, and a task whose exception escaped the
analyzer contributes the substituted degraded metric of language
unknown with zero lines instead of aborting the batch. -/
theorem c6_engine_one_metric_per_file :
    ∀ (task : String → Except PyExc FileMetric) (files order : List String),
      order.Perm files →
      (runEngine task order).length = files.length ∧
      (∀ p ∈ files, ∀ e, task p = Except.error e →
         degradedUnknown p ∈ runEngine task order) ∧
      (∀ p : String, (degradedUnknown p).language = "unknown" ∧ (degradedUnknown p).lines = 0) := by
  intro task files order hperm
  refine ⟨?_, ?_, fun _ => ⟨rfl, rfl⟩⟩
  · simpa [runEngine] using hperm.length_eq
  · intro p hp e he
    have hpo : p ∈ order := hperm.mem_iff.mpr hp
    have : (match task p with
            | Except.ok m => m
            | Except.error _ => degradedUnknown p) = degradedUnknown p := by rw [he]
    exact this ▸ List.mem_map_of_mem _ hpo

/-- C6 witness: a single file whose task raises is replaced by the
degraded unknown metric in the engine output. -/
theorem c6_witness :
    degradedUnknown "a.py" ∈ runEngine (fun _ => Except.error PyExc.other) ["a.py"] :=
  (c6_engine_one_metric_per_file (fun _ => Except.error PyExc.other) ["a.py"] ["a.py"]
      (List.Perm.refl _)).2.1 "a.py" (List.mem_singleton.mpr rfl) PyExc.other rfl

/-- C7: every FileMetric any analyzer returns satisfies
documented_functions ≤ functions and documented_classes ≤ classes;
and the counts the Python success path computes before its failing
construction satisfy the same bounds, since each documented item is
counted among the items of the same list. -/
theorem c7_documented_le_counts :
    (∀ (f : PyFile) (p : String) (m : FileMetric), pyAnalyzeFile f p = Except.ok m →
       m.documented_functions ≤ m.functions ∧ m.documented_classes ≤ m.classes) ∧
    (∀ (f : TextFile) (p : String) (m : FileMetric), jsAnalyzeFile f p = Except.ok m →
       m.documented_functions ≤ m.functions ∧ m.documented_classes ≤ m.classes) ∧
    (∀ (f : TextFile) (p : String) (m : FileMetric), tsAnalyzeFile f p = Except.ok m →
       m.documented_functions ≤ m.functions ∧ m.documented_classes ≤ m.classes) ∧
    (∀ (f : TextFile) (p : String) (m : FileMetric), csAnalyzeFile f p = Except.ok m →
       m.documented_functions ≤ m.functions ∧ m.documented_classes ≤ m.classes) ∧
    (∀ tree : List PyStmt,
       (visitStmts false tree).functions.countP (fun fd => fd.2.2)
         ≤ (visitStmts false tree).functions.length ∧
       (visitStmts false tree).classes.countP (fun cd => cd.2)
         ≤ (visitStmts false tree).classes.length) := by
  refine ⟨?_, ?_, ?_, ?_, ?_⟩
  · intro f p m h
    cases f with
    | osError => cases h; exact ⟨Nat.le_refl 0, Nat.le_refl 0⟩
    | unicodeError => cases h; exact ⟨Nat.le_refl 0, Nat.le_refl 0⟩
    | src lines tree =>
      cases tree with
      | none => cases h; exact ⟨Nat.le_refl 0, Nat.le_refl 0⟩
      | some t =>
        rw [show pyAnalyzeFile (PyFile.src lines (some t)) p = Except.error PyExc.typeError
              from rfl] at h
        exact Except.noConfusion h
  · intro f p m h
    cases f with
    | osError => cases h; exact ⟨Nat.le_refl 0, Nat.le_refl 0⟩
    | unicodeError => cases h; exact ⟨Nat.le_refl 0, Nat.le_refl 0⟩
    | src content =>
      cases h
      exact ⟨List.countP_le_length _, List.countP_le_length _⟩
  · intro f p m h
    cases f <;> cases h <;> exact ⟨Nat.le_refl 0, Nat.le_refl 0⟩
  · intro f p m h
    cases f <;> cases h <;> exact ⟨Nat.le_refl 0, Nat.le_refl 0⟩
  · intro tree
    exact ⟨List.countP_le_length _, List.countP_le_length _⟩

/-- C7 witness: the javascript analyzer on an empty readable file. -/
theorem c7_witness :
    ({ path := "f.js", language := "javascript", lines := 0 } : FileMetric).documented_functions
        ≤ ({ path := "f.js", language := "javascript", lines := 0 } : FileMetric).functions ∧
    ({ path := "f.js", language := "javascript", lines := 0 } : FileMetric).documented_classes
        ≤ ({ path := "f.js", language := "javascript", lines := 0 } : FileMetric).classes :=
  c7_documented_le_counts.2.1 (TextFile.src "") "f.js"
    { path := "f.js", language := "javascript", lines := 0 } rfl

/-- Elements of the deduplication fold come from the accumulator or
from the list. -/
theorem mem_dedup_fold {α : Type _} [DecidableEq α] :
    ∀ (l acc : List α) (x : α),
      x ∈ l.foldl (fun acc x => if acc.contains x then acc else acc ++ [x]) acc →
      x ∈ acc ∨ x ∈ l := by
  intro l
  induction l with
  | nil => intro acc x h; exact Or.inl h
  | cons a rest ih =>
    intro acc x h
    simp only [List.foldl_cons] at h
    rcases ih _ x h with hacc | hrest
    · by_cases hc : acc.contains a = true
      · rw [if_pos hc] at hacc
        exact Or.inl hacc
      · rw [if_neg hc] at hacc
        rcases List.mem_append.mp hacc with h1 | h1
        · exact Or.inl h1
        · exact Or.inr (List.mem_singleton.mp h1 ▸ List.mem_cons_self a rest)
    · exact Or.inr (List.mem_cons_of_mem a hrest)

/-- Deduplication only drops elements. -/
theorem mem_dedupKeepFirst {α : Type _} [DecidableEq α] {l : List α} {x : α}
    (h : x ∈ dedupKeepFirst l) : x ∈ l := by
  rcases mem_dedup_fold l [] x h with h1 | h1
  · cases h1
  · exact h1

/-- Membership in a fold that appends one generated list per element. -/
theorem mem_foldl_append {α β : Type _} (g : β → List α) :
    ∀ (l : List β) (acc : List α) (x : α),
      x ∈ l.foldl (fun acc b => acc ++ g b) acc ↔ x ∈ acc ∨ ∃ b ∈ l, x ∈ g b := by
  intro l
  induction l with
  | nil => simp
  | cons a rest ih =>
    intro acc x
    simp only [List.foldl_cons]
    rw [ih]
    simp only [List.mem_append, List.mem_cons]
    constructor
    · rintro (⟨h1 | h1⟩ | ⟨b, hb, hx⟩)
      · exact Or.inl h1
      · exact Or.inr ⟨a, Or.inl rfl, h1⟩
      · exact Or.inr ⟨b, Or.inr hb, hx⟩
    · rintro (h1 | ⟨b, rfl | hb, hx⟩)
      · exact Or.inl (Or.inl h1)
      · exact Or.inl (Or.inr hx)
      · exact Or.inr ⟨b, hb, hx⟩

/-- C4 counterexample: with languageFilter = [typescript], the file
foo.ts is discovered (it matches the typescript extensions), yet
dispatch walks the FULL registry and hands it to the javascript
analyzer, whose language is not in the filter — dispatch is not
restricted by the filter as the claim states. -/
theorem c4_unlisted_analyzer_dispatched :
    discoverFiles ["typescript"] ["/r/foo.ts"] = ["/r/foo.ts"] ∧
    (dispatchAnalyzer "/r/foo.ts").map AnalyzerSpec.language = some "javascript" ∧
    ¬ ("javascript" ∈ (["typescript"] : List String)) :=
  ⟨rfl, rfl, by decide⟩

/-- C4 amended: the language filter restricts discovery — every
discovered file matches an extension of an analyzer of a listed
language, so files of unmatched languages are simply not discovered —
but dispatch consults the full registry, so a discovered file whose
extension several analyzers share can be analyzed by an analyzer of an
unlisted language. -/
theorem c4_filter_restricts_discovery :
    ∀ (langs paths : List String) (p : String),
      p ∈ discoverFiles langs paths →
      ∃ a, a ∈ usedAnalyzers langs ∧ a.exts.any (fun e => endsWithChars e.toList p.toList) := by
  intro langs paths p hp
  simp only [discoverFiles] at hp
  have h2 := mem_dedupKeepFirst hp
  simp only [mem_foldl_append] at h2
  rcases h2 with h2 | ⟨a, ha, hx | ⟨e, he, hpe⟩⟩
  · cases h2
  · cases hx
  · exact ⟨a, ha, List.any_eq_true.mpr ⟨e, he, (List.mem_filter.mp hpe).2⟩⟩

/-- C4 witness: the discovered foo.ts matches an analyzer of the
listed language typescript. -/
theorem c4_witness :
    ∃ a, a ∈ usedAnalyzers ["typescript"] ∧
      a.exts.any (fun e => endsWithChars e.toList "/r/foo.ts".toList) :=
  c4_filter_restricts_discovery ["typescript"] ["/r/foo.ts"] "/r/foo.ts" (by decide)

/-- Specification view of one aggregation entry: the summary of a
language is determined by the metrics filtered to that language — the
file count is their number and each counter is the plain sum. -/
def summaryFromList (l : List FileMetric) (lang : String) : LanguageSummary :=
  { language := lang,
    files := (l.filter (fun m => m.language = lang)).length,
    lines := ((l.filter (fun m => m.language = lang)).map FileMetric.lines).sum,
    functions := ((l.filter (fun m => m.language = lang)).map FileMetric.functions).sum,
    documented_functions :=
      ((l.filter (fun m => m.language = lang)).map FileMetric.documented_functions).sum,
    classes := ((l.filter (fun m => m.language = lang)).map FileMetric.classes).sum,
    documented_classes :=
      ((l.filter (fun m => m.language = lang)).map FileMetric.documented_classes).sum }

/-- Folding one metric into the association list bumps exactly the
entry of its language. -/
theorem lookup_aggUpdate :
    ∀ (acc : List (String × LanguageSummary)) (m : FileMetric) (lang : String),
      lookupSummary (aggUpdate acc m) lang =
        if m.language = lang then bumpSummary (lookupSummary acc lang) m
        else lookupSummary acc lang := by
  intro acc
  induction acc with
  | nil =>
    intro m lang
    by_cases h : m.language = lang
    · subst h; simp [aggUpdate, lookupSummary]
    · simp [aggUpdate, lookupSummary, h]
  | cons ks rest ih =>
    intro m lang
    obtain ⟨k, s⟩ := ks
    by_cases hk : k = m.language
    · subst hk
      by_cases hl : m.language = lang
      · simp [aggUpdate, lookupSummary, hl]
      · simp [aggUpdate, lookupSummary, hl]
    · by_cases hl : k = lang
      · subst hl
        have hml : ¬m.language = k := fun hh => hk hh.symm
        simp [aggUpdate, lookupSummary, hk, hml]
      · simp [aggUpdate, lookupSummary, hk, hl, ih]

/-- The aggregation of _aggregate_results computes, for every
language, exactly the filtered sums. -/
theorem lookup_aggregate (l : List FileMetric) (lang : String) :
    lookupSummary (aggregateResults l) lang = summaryFromList l lang := by
  induction l using List.reverseRecOn with
  | nil => rfl
  | append_singleton l m ih =>
    have h1 : aggregateResults (l ++ [m]) = aggUpdate (aggregateResults l) m := by
      simp [aggregateResults, List.foldl_append]
    rw [h1, lookup_aggUpdate, ih]
    by_cases h : m.language = lang
    · rw [if_pos h]
      simp [summaryFromList, bumpSummary, List.filter_append, h, LanguageSummary.mk.injEq]
    · rw [if_neg h]
      simp [summaryFromList, List.filter_append, h]

/-- Summed summaries distribute over list concatenation. -/
theorem summaryFromList_append (l1 l2 : List FileMetric) (lang : String) :
    summaryFromList (l1 ++ l2) lang =
      addSummary (summaryFromList l1 lang) (summaryFromList l2 lang) := by
  simp [summaryFromList, addSummary, List.filter_append, LanguageSummary.mk.injEq]

/-- Summed summaries are invariant under permutation of the metrics. -/
theorem summaryFromList_perm {l l' : List FileMetric} (h : l.Perm l') (lang : String) :
    summaryFromList l lang = summaryFromList l' lang := by
  have hf := h.filter (fun m => decide (m.language = lang))
  unfold summaryFromList
  rw [LanguageSummary.mk.injEq]
  exact ⟨rfl, hf.length_eq, (hf.map FileMetric.lines).sum_eq,
    (hf.map FileMetric.functions).sum_eq,
    (hf.map FileMetric.documented_functions).sum_eq,
    (hf.map FileMetric.classes).sum_eq,
    (hf.map FileMetric.documented_classes).sum_eq⟩

/-- C8: aggregation is additive over any split of the metrics into two
disjoint sublists — the summary of the whole list is, per language,
the componentwise sum of the summaries of the parts — and the coverage
of an aggregated summary is computed from that summary's own summed
counters, never by averaging per-file coverages. -/
theorem c8_aggregation_additive :
    (∀ (l l1 l2 : List FileMetric) (lang : String), l.Perm (l1 ++ l2) →
       lookupSummary (aggregateResults l) lang =
         addSummary (lookupSummary (aggregateResults l1) lang)
           (lookupSummary (aggregateResults l2) lang)) ∧
    (∀ (l : List FileMetric) (lang : String),
       (lookupSummary (aggregateResults l) lang).documentation_coverage =
         (if (lookupSummary (aggregateResults l) lang).functions
              + (lookupSummary (aggregateResults l) lang).classes = 0 then (0 : ℚ)
          else (((lookupSummary (aggregateResults l) lang).documented_functions
                  + (lookupSummary (aggregateResults l) lang).documented_classes : Nat) : ℚ)
                 / (((lookupSummary (aggregateResults l) lang).functions
                  + (lookupSummary (aggregateResults l) lang).classes : Nat) : ℚ) * 100)) := by
  constructor
  · intro l l1 l2 lang hperm
    rw [lookup_aggregate, lookup_aggregate, lookup_aggregate,
      summaryFromList_perm hperm, summaryFromList_append]
  · intro l lang
    rfl

/-- C8 witness: a concrete two-file split aggregates additively. -/
theorem c8_witness :
    lookupSummary (aggregateResults
        [{ path := "a.py", language := "python", lines := 2, functions := 1,
           documented_functions := 1 },
         { path := "b.py", language := "python", lines := 3, functions := 3,
           documented_functions := 1, classes := 1 }]) "python" =
      addSummary
        (lookupSummary (aggregateResults
          [{ path := "a.py", language := "python", lines := 2, functions := 1,
             documented_functions := 1 }]) "python")
        (lookupSummary (aggregateResults
          [{ path := "b.py", language := "python", lines := 3, functions := 3,
             documented_functions := 1, classes := 1 }]) "python") :=
  c8_aggregation_additive.1 _ _ _ "python" (List.Perm.refl _)

/-- An edge already recorded survives add_edge. -/
theorem mem_addEdge_mono {es : List (String × String)} {e : String × String}
    (h : e ∈ es) (e' : String × String) : e ∈ addEdge es e' := by
  unfold addEdge
  split_ifs
  · exact h
  · exact List.mem_append_left _ h

/-- add_edge records its edge. -/
theorem mem_addEdge_self (es : List (String × String)) (e : String × String) :
    e ∈ addEdge es e := by
  unfold addEdge
  split_ifs with h
  · exact h
  · exact List.mem_append_right _ (List.mem_singleton.mpr rfl)

/-- The per-token edge step never discards recorded edges. -/
theorem mem_edgeStep_mono (idx : List (String × List String)) (rel : String)
    {es : List (String × String)} {e : String × String} (h : e ∈ es) (dep : String) :
    e ∈ edgeStep idx rel es dep := by
  unfold edgeStep
  cases hl : lookupIndex idx (firstDotSegment dep) with
  | none => exact h
  | some ts =>
    cases ts with
    | nil => exact h
    | cons t ts' =>
      show e ∈ if t ≠ rel then addEdge es (rel, t) else es
      split_ifs
      · exact mem_addEdge_mono h _
      · exact h

/-- The token fold of one file never discards recorded edges. -/
theorem mem_depsFold_mono (idx : List (String × List String)) (rel : String) :
    ∀ (deps : List String) {es : List (String × String)} {e : String × String},
      e ∈ es → e ∈ deps.foldl (edgeStep idx rel) es := by
  intro deps
  induction deps with
  | nil => intro es e h; exact h
  | cons d rest ih => intro es e h; exact ih (mem_edgeStep_mono idx rel h d)

/-- The edge phase over the remaining files never discards recorded
edges. -/
theorem mem_edgesFold_mono (idx : List (String × List String)) (scanPath : String) :
    ∀ (metrics : List FileMetric) {es : List (String × String)} {e : String × String},
      e ∈ es →
      e ∈ metrics.foldl
            (fun es m => m.dependencies.foldl (edgeStep idx (stripRoot scanPath m.path)) es) es := by
  intro metrics
  induction metrics with
  | nil => intro es e h; exact h
  | cons m rest ih => intro es e h; exact ih (mem_depsFold_mono _ _ _ h)

/-- Processing a token whose leading segment resolves to a first
candidate different from the file records the edge. -/
theorem mem_depsFold_insert (idx : List (String × List String)) (rel t : String)
    (ts : List String) :
    ∀ (deps : List String) (es : List (String × String)) (dep : String),
      dep ∈ deps →
      lookupIndex idx (firstDotSegment dep) = some (t :: ts) →
      t ≠ rel →
      (rel, t) ∈ deps.foldl (edgeStep idx rel) es := by
  intro deps
  induction deps with
  | nil => intro es dep h; cases h
  | cons d rest ih =>
    intro es dep hd hlook hne
    rcases List.mem_cons.mp hd with rfl | hd'
    · have hstep : edgeStep idx rel es dep = addEdge es (rel, t) := by
        simp [edgeStep, hlook, hne]
      rw [List.foldl_cons, hstep]
      exact mem_depsFold_mono idx rel rest (mem_addEdge_self es (rel, t))
    · rw [List.foldl_cons]
      exact ih _ dep hd' hlook hne

/-- add_edge preserves the absence of self-loops when the new edge has
distinct endpoints. -/
theorem addEdge_no_self {es : List (String × String)}
    (hinv : ∀ e ∈ es, e.1 ≠ e.2) {a b : String} (hne : a ≠ b) :
    ∀ e ∈ addEdge es (a, b), e.1 ≠ e.2 := by
  intro e he
  unfold addEdge at he
  split_ifs at he
  · exact hinv e he
  · rcases List.mem_append.mp he with h1 | h1
    · exact hinv e h1
    · rw [List.mem_singleton.mp h1]
      exact hne

/-- The edge step preserves the absence of self-loops: its guard only
records an edge whose target differs from the source. -/
theorem edgeStep_no_self (idx : List (String × List String)) (rel : String)
    {es : List (String × String)} (hinv : ∀ e ∈ es, e.1 ≠ e.2) (dep : String) :
    ∀ e ∈ edgeStep idx rel es dep, e.1 ≠ e.2 := by
  unfold edgeStep
  cases hl : lookupIndex idx (firstDotSegment dep) with
  | none => exact hinv
  | some ts =>
    cases ts with
    | nil => exact hinv
    | cons t ts' =>
      show ∀ e ∈ (if t ≠ rel then addEdge es (rel, t) else es), e.1 ≠ e.2
      split_ifs with ht
      · exact addEdge_no_self hinv (fun hh => ht hh.symm)
      · exact hinv

/-- The token fold preserves the absence of self-loops. -/
theorem depsFold_no_self (idx : List (String × List String)) (rel : String) :
    ∀ (deps : List String) {es : List (String × String)},
      (∀ e ∈ es, e.1 ≠ e.2) →
      ∀ e ∈ deps.foldl (edgeStep idx rel) es, e.1 ≠ e.2 := by
  intro deps
  induction deps with
  | nil => intro es h; exact h
  | cons d rest ih => intro es h; exact ih (edgeStep_no_self idx rel h d)

/-- The whole edge phase yields no self-loops. -/
theorem buildEdges_no_self (idx : List (String × List String)) (scanPath : String) :
    ∀ (metrics : List FileMetric) {es : List (String × String)},
      (∀ e ∈ es, e.1 ≠ e.2) →
      ∀ e ∈ metrics.foldl
              (fun es m => m.dependencies.foldl (edgeStep idx (stripRoot scanPath m.path)) es) es,
        e.1 ≠ e.2 := by
  intro metrics
  induction metrics with
  | nil => intro es h; exact h
  | cons m rest ih => intro es h; exact ih (depsFold_no_self _ _ _ h)

/-- A file of the list whose token resolves to a first candidate
other than itself contributes its edge to the edge phase, whatever the
starting accumulator. -/
theorem mem_edgesFold_insert (idx : List (String × List String)) (scanPath : String)
    (t : String) (ts : List String) :
    ∀ (metrics : List FileMetric) (es : List (String × String)) (m : FileMetric) (dep : String),
      m ∈ metrics → dep ∈ m.dependencies →
      lookupIndex idx (firstDotSegment dep) = some (t :: ts) →
      t ≠ stripRoot scanPath m.path →
      (stripRoot scanPath m.path, t)
        ∈ metrics.foldl
            (fun es m => m.dependencies.foldl (edgeStep idx (stripRoot scanPath m.path)) es) es := by
  intro metrics
  induction metrics with
  | nil => intro es m dep h; cases h
  | cons m0 rest ih =>
    intro es m dep hm hdep hlook hne
    rcases List.mem_cons.mp hm with rfl | hm'
    · rw [List.foldl_cons]
      exact mem_edgesFold_mono idx scanPath rest
        (mem_depsFold_insert idx _ t ts _ _ dep hdep hlook hne)
    · rw [List.foldl_cons]
      exact ih _ m dep hm' hdep hlook hne

/-- The importing file of the ordering counterexample: a.py with the
dependency token b, as the Python analyzer would report it. -/
def c3MetricA : FileMetric :=
  { path := "/r/a.py", language := "python", lines := 1, dependencies := ["b"] }

/-- The imported file of the ordering counterexample. -/
def c3MetricB : FileMetric :=
  { path := "/r/b.py", language := "python", lines := 1 }

/-- C3 counterexample: when a.py precedes b.py in the metrics list (a
completion order the pool can produce), the reverse index lists a.py
itself as the FIRST owner of the token b — every file is indexed under
the base of its own dependency tokens — so the only candidate tried is
a self-edge and it is suppressed: the graph holds NO edge a.py → b.py,
against the claim that every such scan contains it. -/
theorem c3_edge_missing_when_importer_first :
    c3MetricA.dependencies = ["b"] ∧
    lookupIndex (buildModuleIndex "/r" [c3MetricA, c3MetricB]) "b" = some ["a.py", "b.py"] ∧
    (buildDependencyGraph "/r" [c3MetricA, c3MetricB]).edges = [] :=
  ⟨rfl, rfl, rfl⟩

/-- C3 amended: the general rule holds in guarded form — for every
file and every dependency token whose leading segment resolves in the
reverse index to a first candidate DIFFERENT from the file itself, the
edge file → first candidate is present, and no self-loop ever is; the
a.py → b.py scenario edge is therefore present exactly in metric
orders where b.py is the first owner of the token b, such as b.py
first, and absent when a.py (indexed under its own token b) comes
first. -/
theorem c3_first_candidate_rule :
    (("a.py", "b.py") ∈ (buildDependencyGraph "/r" [c3MetricB, c3MetricA]).edges) ∧
    (∀ (scanPath : String) (metrics : List FileMetric) (m : FileMetric)
       (dep t : String) (ts : List String),
       m ∈ metrics → dep ∈ m.dependencies →
       lookupIndex (buildModuleIndex scanPath metrics) (firstDotSegment dep) = some (t :: ts) →
       t ≠ stripRoot scanPath m.path →
       (stripRoot scanPath m.path, t) ∈ (buildDependencyGraph scanPath metrics).edges) ∧
    (∀ (scanPath : String) (metrics : List FileMetric) (e : String × String),
       e ∈ (buildDependencyGraph scanPath metrics).edges → e.1 ≠ e.2) := by
  refine ⟨by decide, ?_, ?_⟩
  · intro scanPath metrics m dep t ts hm hdep hlook hne
    show (stripRoot scanPath m.path, t)
        ∈ buildEdges (buildModuleIndex scanPath metrics) scanPath metrics
    unfold buildEdges
    exact mem_edgesFold_insert _ scanPath t ts metrics [] m dep hm hdep hlook hne
  · intro scanPath metrics e he
    exact buildEdges_no_self _ scanPath metrics (fun e h => absurd h (List.not_mem_nil e)) e he

/-- C3 witness: with b.py first in the metrics order, the token b of
a.py resolves to the first candidate b.py, distinct from a.py, and the
scenario edge is present. -/
theorem c3_witness :
    ("a.py", "b.py") ∈ (buildDependencyGraph "/r" [c3MetricB, c3MetricA]).edges :=
  c3_first_candidate_rule.2.1 "/r" [c3MetricB, c3MetricA] c3MetricA "b" "b.py" ["a.py"]
    (by decide) (by decide) (by decide) (by decide)

/-- A pattern starts a list exactly when the list is the pattern
followed by a remainder. -/
theorem startsWithChars_iff : ∀ (p l : List Char),
    startsWithChars p l = true ↔ ∃ r, l = p ++ r := by
  intro p
  induction p with
  | nil => intro l; simp [startsWithChars]
  | cons a ps ih =>
    intro l
    cases l with
    | nil =>
      simp [startsWithChars]
    | cons c cs =>
      simp only [startsWithChars, Bool.and_eq_true, decide_eq_true_eq, List.cons_append,
        List.cons.injEq]
      rw [ih]
      constructor
      · rintro ⟨rfl, r, rfl⟩
        exact ⟨r, rfl, rfl⟩
      · rintro ⟨r, rfl, rfl⟩
        exact ⟨rfl, r, rfl⟩

/-- Every match the class scan emits begins with the keyword class:
each emitted entry comes out of tryMatchClass, which builds it as the
literal followed by the matched whitespace and word runs. -/
theorem scanClasses_starts :
    ∀ (fuel : Nat) (prev : Option Char) (l cls : List Char),
      cls ∈ scanClasses fuel prev l → startsWithChars classLit cls = true := by
  intro fuel
  induction fuel with
  | zero => intro prev l cls h; cases h
  | succ n ih =>
    intro prev l cls h
    cases l with
    | nil => cases h
    | cons c rest =>
      revert h
      show cls ∈ scanClasses (n + 1) prev (c :: rest) → _
      cases htry : tryMatchClass prev (c :: rest) with
      | none =>
        intro h
        rw [show scanClasses (n + 1) prev (c :: rest) = scanClasses n (some c) rest by
              simp [scanClasses, htry]] at h
        exact ih _ _ _ h
      | some mr =>
        obtain ⟨m, rest'⟩ := mr
        intro h
        rw [show scanClasses (n + 1) prev (c :: rest)
              = m :: scanClasses n (some (m.getLastD c)) rest' by
              simp [scanClasses, htry]] at h
        rcases List.mem_cons.mp h with rfl | h'
        · -- m comes out of tryMatchClass, hence starts with the literal
          simp only [tryMatchClass] at htry
          split_ifs at htry
          injection htry with htry1
          injection htry1 with hm hr
          rw [← hm, startsWithChars_iff]
          exact ⟨_, by rw [List.append_assoc]⟩
        · exact ih _ _ _ h'

/-- Whether the content anywhere holds the keyword class, whitespace,
and a second keyword class — the only way the documented-class search
can succeed on a findall match. -/
def hasClassWsClass (content : List Char) : Bool :=
  content.tails.any fun t =>
    startsWithChars classLit t &&
      (match t.drop 5 with
       | [] => false
       | c :: _ => isSpaceChar c && startsWithChars classLit ((t.drop 5).dropWhile isSpaceChar))

/-- A successful documented-class search on a candidate beginning with
the class keyword exhibits class-whitespace-class inside the
content. -/
theorem hasClassWsClass_of_search {content cls : List Char}
    (hcls : startsWithChars classLit cls = true)
    (h : searchDocClass content cls = true) :
    hasClassWsClass content = true := by
  unfold searchDocClass at h
  rw [List.any_eq_true] at h
  obtain ⟨s1, hs1mem, hs1⟩ := h
  rw [Bool.and_eq_true] at hs1
  obtain ⟨_, hinner⟩ := hs1
  rw [List.any_eq_true] at hinner
  obtain ⟨s2, hs2mem, hs2⟩ := hinner
  rw [Bool.and_eq_true] at hs2
  obtain ⟨_, hafter⟩ := hs2
  simp only [docClassAfterComment, Bool.and_eq_true] at hafter
  obtain ⟨hstarts, hrest⟩ := hafter
  have hsuf : (s2.drop 2).dropWhile isSpaceChar <:+ content := by
    have h1 : (s2.drop 2).dropWhile isSpaceChar <:+ s2.drop 2 := List.dropWhile_suffix _
    have h2 : s2.drop 2 <:+ s2 := List.drop_suffix _ _
    have h3 : s2 <:+ s1.drop 3 := (List.mem_tails _ _).mp hs2mem
    have h4 : s1.drop 3 <:+ s1 := List.drop_suffix _ _
    have h5 : s1 <:+ content := (List.mem_tails _ _).mp hs1mem
    exact h1.trans (h2.trans (h3.trans (h4.trans h5)))
  unfold hasClassWsClass
  rw [List.any_eq_true]
  refine ⟨(s2.drop 2).dropWhile isSpaceChar, (List.mem_tails _ _).mpr hsuf, ?_⟩
  rw [Bool.and_eq_true]
  refine ⟨hstarts, ?_⟩
  cases hd : ((s2.drop 2).dropWhile isSpaceChar).drop 5 with
  | nil =>
    rw [hd] at hrest
    exact hrest
  | cons c cs =>
    rw [hd] at hrest
    rw [Bool.and_eq_true] at hrest
    obtain ⟨hsp, hcls2⟩ := hrest
    rw [Bool.and_eq_true]
    refine ⟨hsp, ?_⟩
    rw [startsWithChars_iff] at hcls2 ⊢
    obtain ⟨r, hr⟩ := hcls2
    rw [startsWithChars_iff] at hcls
    obtain ⟨r2, hr2⟩ := hcls
    exact ⟨r2 ++ r, by rw [hr, hr2, List.append_assoc]⟩

/-- The content refuting the universal zero-count: a first class
declaration, a closed doc comment, then the keyword class twice; the
findall capture of the first declaration, sought after a second
literal class, then matches. -/
def c10Content : String := "class Foo /** */ class class Foo"

/-- C10 counterexample: on this content the analyzer returns
documented_classes = 1, not 0 — the claim's 'can never match' is too
strong, since content holding two consecutive class keywords makes the
doubled search pattern succeed. -/
theorem c10_doc_class_counted :
    jsAnalyzeFile (TextFile.src c10Content) "x.js" =
      Except.ok { path := "x.js", language := "javascript", lines := 1,
                  functions := 0, documented_functions := 0,
                  classes := 2, documented_classes := 1 } ∧
    jsCountDocumentedClasses c10Content.toList (findClasses c10Content.toList) = 1 :=
  ⟨rfl, rfl⟩

/-- C10 amended: for every content that nowhere holds the keyword
class followed by whitespace and a second class keyword,
analyze_file returns documented_classes = 0; in particular a doc
comment immediately preceding an ordinary class declaration never
makes that class count, because the search wants the captured text
class-plus-name after a second literal class. -/
theorem c10_documented_classes_need_double_class :
    ∀ (s : String) (path : String) (m : FileMetric),
      jsAnalyzeFile (TextFile.src s) path = Except.ok m →
      hasClassWsClass s.toList = false →
      m.documented_classes = 0 := by
  intro s path m h hno
  simp only [jsAnalyzeFile] at h
  injection h with h2
  subst h2
  show jsCountDocumentedClasses s.toList (findClasses s.toList) = 0
  unfold jsCountDocumentedClasses
  rw [List.countP_eq_zero]
  intro cls hclsmem hsearch
  have hshape := scanClasses_starts _ _ _ _ hclsmem
  have := hasClassWsClass_of_search hshape hsearch
  rw [hno] at this
  exact Bool.noConfusion this

/-- C10 witness: a doc comment right before a single class declaration
— the intended documented-class shape — still yields zero documented
classes. -/
theorem c10_witness :
    ({ path := "x.js", language := "javascript", lines := 1,
       functions := 0, documented_functions := 0,
       classes := 1, documented_classes := 0 } : FileMetric).documented_classes = 0 :=
  c10_documented_classes_need_double_class "/** doc */ class Foo" "x.js"
    { path := "x.js", language := "javascript", lines := 1,
      functions := 0, documented_functions := 0,
      classes := 1, documented_classes := 0 } rfl rfl

end AppDoc
